import Mathlib

/-
  Verification of the Hetzner Robot DNS provider
  (src/lexicon/providers/hetzner.py).

  Shallow embedding conventions:
  * Python `str` values are embedded as `Str := List Char`; Python byte
    strings as `List Nat` (each element a byte value < 256).
  * Fallible Python operations (sequence indexing, iterating `None`,
    `raise AssertionError`) are embedded with `Except PyErr`.
  * The live HTTP session, the zone submission and the DNS resolver are
    external effects; they are embedded as explicit parameters
    (`postOk : Bool` for the submission outcome, `DnsEnv` for the
    resolver) and as counters on the provider state (`closeCalls`,
    `postCalls`) recording how often `_close_session` / `_post_zone`
    were invoked.
-/

set_option maxHeartbeats 1000000

abbrev Str := List Char

/-- The `"` character. -/
def dquote : Char := Char.ofNat 34

/-- The `/` character. -/
def slashc : Char := Char.ofNat 47

/-- The `.` character. -/
def dotc : Char := Char.ofNat 46

/-- Errors a Python expression can raise. -/
inductive PyErr where
  | indexError : PyErr
  | typeError : PyErr
  | assertionError : PyErr
deriving DecidableEq, Repr

/-- Python `s[0]`: first character or IndexError. -/
def pyHead : Str → Except PyErr Char
  | [] => .error .indexError
  | c :: _ => .ok c

/-- Python `s[-1]`: last character or IndexError. -/
def pyLast (s : Str) : Except PyErr Char :=
  match s.getLast? with
  | some c => .ok c
  | none => .error .indexError

/-- Python `s.strip(ch)` for a single strip character: remove all leading
and trailing occurrences of `ch`. -/
def pyStrip (s : Str) (ch : Char) : Str :=
  ((s.dropWhile (fun x => x = ch)).reverse.dropWhile (fun x => x = ch)).reverse

/-- Python `s.rstrip(ch)` for a single strip character. -/
def pyRstrip (s : Str) (ch : Char) : Str :=
  (s.reverse.dropWhile (fun x => x = ch)).reverse

/-- Python `s.split(sep)` for a single separator character: always returns
at least one (possibly empty) part, keeping empty parts. -/
def pySplit (sep : Char) : Str → List Str
  | [] => [[]]
  | c :: rest =>
    match pySplit sep rest with
    | [] => []
    | p :: ps => if c = sep then [] :: p :: ps else (c :: p) :: ps

/-- Python `sep.join(parts)`. -/
def pyJoin (sep : Str) : List Str → Str
  | [] => []
  | [p] => p
  | p :: q :: ps => p ++ sep ++ pyJoin sep (q :: ps)

/-- Python truthiness of an optional string (`None` and `''` are falsy). -/
def pyTruthyO : Option Str → Bool
  | none => false
  | some s => !s.isEmpty

/-- Python falsiness of an optional string (`not x`). -/
def pyFalsyO (o : Option Str) : Bool := !(pyTruthyO o)

/-- UTF-8 encoding of a single character (standard 1-4 byte encoding of
its code point). -/
def utf8EncodeChar (c : Char) : List Nat :=
  let n := c.toNat
  if n < 128 then [n]
  else if n < 2048 then [192 + n / 64, 128 + n % 64]
  else if n < 65536 then [224 + n / 4096, 128 + (n / 64) % 64, 128 + n % 64]
  else [240 + n / 262144, 128 + (n / 4096) % 64, 128 + (n / 64) % 64, 128 + n % 64]

/-- Python `s.encode('UTF-8')`. -/
def utf8Encode : Str → List Nat
  | [] => []
  | c :: rest => utf8EncodeChar c ++ utf8Encode rest

/- ### SHA-256 (the `hashlib.sha256` primitive used by `_build_identifier`)

32-bit words are embedded as `Nat` reduced modulo `2 ^ 32`. -/

/-- Truncate to a 32-bit word. -/
def w32 (n : Nat) : Nat := n % 4294967296

/-- 32-bit right rotation. -/
def rotr32 (k x : Nat) : Nat := w32 ((x >>> k) ||| (x <<< (32 - k)))

/-- SHA-256 `Ch` function (`¬x` as xor with the 32-bit all-ones mask). -/
def shaCh (x y z : Nat) : Nat := (x &&& y) ^^^ ((x ^^^ 4294967295) &&& z)

/-- SHA-256 `Maj` function. -/
def shaMaj (x y z : Nat) : Nat := (x &&& y) ^^^ (x &&& z) ^^^ (y &&& z)

/-- SHA-256 big sigma 0. -/
def bsig0 (x : Nat) : Nat := rotr32 2 x ^^^ rotr32 13 x ^^^ rotr32 22 x

/-- SHA-256 big sigma 1. -/
def bsig1 (x : Nat) : Nat := rotr32 6 x ^^^ rotr32 11 x ^^^ rotr32 25 x

/-- SHA-256 small sigma 0. -/
def ssig0 (x : Nat) : Nat := rotr32 7 x ^^^ rotr32 18 x ^^^ (x >>> 3)

/-- SHA-256 small sigma 1. -/
def ssig1 (x : Nat) : Nat := rotr32 17 x ^^^ rotr32 19 x ^^^ (x >>> 10)

/-- The 64 SHA-256 round constants (decimal). -/
def sha256K : List Nat :=
  [1116352408, 1899447441, 3049323471, 3921009573, 961987163,
   1508970993, 2453635748, 2870763221, 3624381080, 310598401,
   607225278, 1426881987, 1925078388, 2162078206, 2614888103,
   3248222580, 3835390401, 4022224774, 264347078, 604807628,
   770255983, 1249150122, 1555081692, 1996064986, 2554220882,
   2821834349, 2952996808, 3210313671, 3336571891, 3584528711,
   113926993, 338241895, 666307205, 773529912, 1294757372,
   1396182291, 1695183700, 1986661051, 2177026350, 2456956037,
   2730485921, 2820302411, 3259730800, 3345764771, 3516065817,
   3600352804, 4094571909, 275423344, 430227734, 506948616,
   659060556, 883997877, 958139571, 1322822218, 1537002063,
   1747873779, 1955562222, 2024104815, 2227730452, 2361852424,
   2428436474, 2756734187, 3204031479, 3329325298]

/-- The SHA-256 initial hash value (decimal). -/
def sha256H0 : List Nat :=
  [1779033703, 3144134277, 1013904242, 2773480762,
   1359893119, 2600822924, 528734635, 1541459225]

/-- Big-endian 8-byte encoding of a natural number (the message bit length
field of the SHA-256 padding). -/
def lenBytes8 (n : Nat) : List Nat :=
  [(n >>> 56) % 256, (n >>> 48) % 256, (n >>> 40) % 256, (n >>> 32) % 256,
   (n >>> 24) % 256, (n >>> 16) % 256, (n >>> 8) % 256, n % 256]

/-- SHA-256 padding: append `0x80`, zero bytes up to 56 mod 64, then the
bit length as 8 bytes big-endian. -/
def sha256Pad (msg : List Nat) : List Nat :=
  msg ++ [128] ++ List.replicate ((119 - msg.length % 64) % 64) 0
      ++ lenBytes8 (8 * msg.length)

/-- Group a byte list into big-endian 32-bit words. -/
def toWords32 : List Nat → List Nat
  | b0 :: b1 :: b2 :: b3 :: rest =>
      (((b0 <<< 8 ||| b1) <<< 8 ||| b2) <<< 8 ||| b3) :: toWords32 rest
  | _ => []

/-- Extend the 16-word message schedule by `k` further words. -/
def extendSchedule : Nat → List Nat → List Nat
  | 0, w => w
  | k + 1, w =>
    let t := w.length
    let wt := w32 (ssig1 (w.getD (t - 2) 0) + w.getD (t - 7) 0 +
                   ssig0 (w.getD (t - 15) 0) + w.getD (t - 16) 0)
    extendSchedule k (w ++ [wt])

/-- One SHA-256 compression round on the eight working variables. -/
def compressStep (st8 : List Nat) (kw : Nat × Nat) : List Nat :=
  match st8 with
  | [a, b, c, d, e, f, g, h] =>
    let t1 := w32 (h + bsig1 e + shaCh e f g + kw.1 + kw.2)
    let t2 := w32 (bsig0 a + shaMaj a b c)
    [w32 (t1 + t2), a, b, c, w32 (d + t1), e, f, g]
  | other => other

/-- Process one 64-byte block, updating the eight-word hash state. -/
def processBlock (h8 : List Nat) (block : List Nat) : List Nat :=
  let ws := extendSchedule 48 (toWords32 block)
  let out := (sha256K.zip ws).foldl compressStep h8
  (h8.zip out).map (fun p => w32 (p.1 + p.2))

/-- Fold `processBlock` over successive 64-byte blocks.  `fuel` bounds the
number of steps; the padded message has at most `fuel` blocks whenever
`fuel` is at least its length, so the bound is never hit in use. -/
def sha256Blocks : Nat → List Nat → List Nat → List Nat
  | 0, h8, _ => h8
  | _, h8, [] => h8
  | fuel + 1, h8, b :: rest =>
      sha256Blocks fuel (processBlock h8 (List.take 64 (b :: rest)))
        (List.drop 64 (b :: rest))

/-- SHA-256 digest of a byte string, as eight 32-bit words. -/
def sha256Words (msg : List Nat) : List Nat :=
  let padded := sha256Pad msg
  sha256Blocks padded.length sha256H0 padded

/-- Lower-case hex digit. -/
def hexDigit (n : Nat) : Char :=
  if n < 10 then Char.ofNat (48 + n) else Char.ofNat (87 + n)

/-- Lower-case hex rendering of one 32-bit word (8 digits). -/
def wordToHex (w : Nat) : Str :=
  [hexDigit (w / 268435456 % 16), hexDigit (w / 16777216 % 16),
   hexDigit (w / 1048576 % 16), hexDigit (w / 65536 % 16),
   hexDigit (w / 4096 % 16), hexDigit (w / 256 % 16),
   hexDigit (w / 16 % 16), hexDigit (w % 16)]

/-- Lower-case hex digest string of a word list. -/
def wordsToHex : List Nat → Str
  | [] => []
  | w :: ws => wordToHex w ++ wordsToHex ws

/-- `hashlib.sha256()` hasher state: the accumulated byte stream. -/
def sha256Buf0 : List Nat := []

/-- `hasher.update(bs)`: append bytes to the accumulated stream. -/
def sha256Update (buf bs : List Nat) : List Nat := buf ++ bs

/-- `hasher.hexdigest()`: lower-case hex of the SHA-256 of the stream. -/
def sha256Hexdigest (buf : List Nat) : Str := wordsToHex (sha256Words buf)

/-- `Provider._build_identifier` (hetzner.py lines 264-270): three
incremental `update` calls over the UTF-8 bytes of `rdtype + '/'`,
`name + '/'` and `content`, then the first 7 hex characters. -/
def _build_identifier (rdtype name content : Str) : Str :=
  let buf0 := sha256Buf0
  let buf1 := sha256Update buf0 (utf8Encode (rdtype ++ [slashc]))
  let buf2 := sha256Update buf1 (utf8Encode (name ++ [slashc]))
  let buf3 := sha256Update buf2 (utf8Encode content)
  (sha256Hexdigest buf3).take 7

/-- The spec's description of the identifier (spec section 4.1): the first
7 hex characters of the SHA-256 hex digest of the UTF-8 bytes of the single
string `type + "/" + name + "/" + content`. -/
def build_identifier_spec (rdtype name content : Str) : Str :=
  (wordsToHex (sha256Words (utf8Encode (rdtype ++ slashc :: name ++ slashc :: content)))).take 7

/-- Modelled from the spec: the base-provider contract (spec sections 1
and 6) supplies `_fqdn_name`, whose behaviour the spec describes as
"FQDN-qualify (append trailing dot relative to zone) if not already
absolute" (section 4.2); its code is not under src/.  Trailing dots are
stripped, the zone's domain is appended when the name does not already
end in it, and a final trailing dot is added. -/
def _fqdn_name (domain recordName : Str) : Str :=
  let stripped := pyRstrip recordName dotc
  if domain.isSuffixOf stripped then stripped ++ [dotc]
  else stripped ++ dotc :: domain ++ [dotc]

/-- Modelled from the spec: the base-provider contract supplies
`_full_name` (spec section 6), the user-facing record name: like
`_fqdn_name` but without the final trailing dot. -/
def _full_name (domain recordName : Str) : Str :=
  let stripped := pyRstrip recordName dotc
  if domain.isSuffixOf stripped then stripped
  else stripped ++ dotc :: domain

/-- The TXT/LOC body of `_wellformed_content` (hetzner.py lines 285-289):
prepend a `"` unless `content[0]` is one, then append a `"` unless
`content[-1]` is one.  `content[0]` on the empty string raises
IndexError. -/
def quoteWrap (content : Str) : Except PyErr Str :=
  match pyHead content with
  | .error e => .error e
  | .ok c0 =>
      let content1 := if c0 ≠ dquote then dquote :: content else content
      match pyLast content1 with
      | .error e => .error e
      | .ok cl => .ok (if cl ≠ dquote then content1 ++ [dquote] else content1)

/-- `Provider._wellformed_content` (hetzner.py lines 284-293): quote-wrap
TXT/LOC content, FQDN-qualify CNAME/MX/NS/SRV content whose last
character is not `.`. -/
def _wellformed_content (domain rdtype content : Str) : Except PyErr Str :=
  match (if rdtype = "TXT".data ∨ rdtype = "LOC".data
         then quoteWrap content else .ok content) with
  | .error e => .error e
  | .ok content1 =>
      if rdtype = "CNAME".data ∨ rdtype = "MX".data ∨ rdtype = "NS".data
          ∨ rdtype = "SRV".data then
        match pyLast content1 with
        | .error e => .error e
        | .ok cl => .ok (if cl ≠ dotc then _fqdn_name domain content1 else content1)
      else .ok content1

/-- `Provider._raw_content` (hetzner.py lines 295-298): strip surrounding
quotes from TXT/LOC content, identity otherwise. -/
def _raw_content (rdtype content : Str) : Str :=
  if rdtype = "TXT".data ∨ rdtype = "LOC".data then pyStrip content dquote
  else content

/-- Total wrapper for `_wellformed_content` at call sites that are
guarded by Python short-circuiting so that `content` is never empty
(there `_wellformed_content` never raises, see `wellformed_total`); the
fallback branch is unreachable at those sites. -/
def wellformed_or (domain rdtype content : Str) : Str :=
  match _wellformed_content domain rdtype content with
  | .ok s => s
  | .error _ => content

/- ### Zone data model (the dnspython zone held in `self.zone['data']`) -/

/-- One rdataset of the zone: a record type, a TTL and the rdatas in
their `to_text()` form. -/
structure Rdataset where
  rdtype : Str
  ttl : Nat
  rdatas : List Str
deriving DecidableEq, Repr

/-- The zone's record data: an association list from owner name (absolute,
with trailing dot) to rdatasets; `(owner, rdtype)` acts as the key. -/
abbrev ZoneData := List (Str × Rdataset)

/-- `zone.get_rdataset(name, rdtype)` (create=False): the rdataset at the
given owner and type, if any. -/
def get_rdataset (z : ZoneData) (name rdtype : Str) : Option Rdataset :=
  match z.find? (fun p => p.1 = name ∧ p.2.rdtype = rdtype) with
  | some p => some p.2
  | none => none

/-- A fresh empty rdataset (TTL 0, as dnspython initialises it). -/
def empty_rdataset (rdtype : Str) : Rdataset :=
  { rdtype := rdtype, ttl := 0, rdatas := [] }

/-- `zone.get_rdataset(name, rdtype, create=True)`: return the existing
rdataset, or attach and return a fresh empty one. -/
def get_rdataset_create (z : ZoneData) (name rdtype : Str) : ZoneData × Rdataset :=
  match get_rdataset z name rdtype with
  | some rs => (z, rs)
  | none => (z ++ [(name, empty_rdataset rdtype)], empty_rdataset rdtype)

/-- `zone.replace_rdataset(name, rs)`: replace the rdataset with `rs`'s
type at the owner, or attach it if absent. -/
def replace_rdataset (z : ZoneData) (name : Str) (rs : Rdataset) : ZoneData :=
  if z.any (fun p => p.1 = name ∧ p.2.rdtype = rs.rdtype) then
    z.map (fun p => if p.1 = name ∧ p.2.rdtype = rs.rdtype then (name, rs) else p)
  else z ++ [(name, rs)]

/-- `zone.delete_rdataset(name, rdtype)`. -/
def delete_rdataset (z : ZoneData) (name rdtype : Str) : ZoneData :=
  z.filter (fun p => !(p.1 = name ∧ p.2.rdtype = rdtype : Bool))

/-- `rrset.update(other)` (dnspython `Rdataset.update`): merge the other
set's rdatas into this one (set semantics) and lower the TTL to the
other's when this set is empty or the other's is smaller. -/
def rdataset_update (self other : Rdataset) : Rdataset :=
  { self with
    ttl := if self.rdatas.isEmpty then other.ttl else Nat.min self.ttl other.ttl,
    rdatas := self.rdatas ++ other.rdatas.filter (fun r => !(self.rdatas.contains r)) }

/- ### Provider state and configuration -/

/-- The lexicon/provider options consumed by the operations
(`_get_lexicon_option` / `_get_provider_option`). -/
structure Config where
  ttl : Nat
  action : Str
  live_tests : Option Str
deriving DecidableEq, Repr

/-- The provider's mutable state after `authenticate`: the zone's domain,
the resolved CNAME (if concatenation found one), the loaded zone record
data, and counters for the externally-effectful `_close_session` and
`_post_zone` invocations. -/
structure ProviderState where
  domain : Str
  cname : Option Str
  zone : ZoneData
  closeCalls : Nat
  postCalls : Nat
deriving DecidableEq, Repr

/-- `self._close_session()`: an HTTP logout whose return value every
caller discards; embedded as bumping the invocation counter. -/
def closeSession (st : ProviderState) : ProviderState :=
  { st with closeCalls := st.closeCalls + 1 }

/-- `self._post_zone()`'s state effect: an HTTP zone submission; embedded
as bumping the invocation counter (its boolean outcome is the `postOk`
parameter of each operation). -/
def postZone (st : ProviderState) : ProviderState :=
  { st with postCalls := st.postCalls + 1 }

/-- `self.cname if self.cname else self._fqdn_name(name)` (Python
truthiness: an empty cname also falls back to `_fqdn_name`). -/
def effective_owner (st : ProviderState) (name : Str) : Str :=
  match st.cname with
  | some cn => if cn.isEmpty then _fqdn_name st.domain name else cn
  | none => _fqdn_name st.domain name

/-- The record dictionaries produced by `list_records`. -/
structure Record where
  type : Str
  name : Str
  ttl : Nat
  content : Str
  id : Str
deriving DecidableEq, Repr

/- ### The provider operations -/

/-- `Provider.list_records` (hetzner.py lines 111-134): filter the zone's
rdatasets by optional type/name (against the effective owner) and
content (compared in well-formed form; Python's `not content or ...`
short-circuits, so `_wellformed_content` is only reached with non-empty
content, where it cannot raise).  Closes the session only when the
configured action is `list`. -/
def list_records (cfg : Config) (st : ProviderState)
    (rdtype name content : Option Str) : List Record × ProviderState :=
  let records := st.zone.foldr (fun p acc =>
    let rtype := p.2.rdtype
    let rname := p.1
    if (pyFalsyO rdtype || (rdtype = some rtype : Bool))
        && (pyFalsyO name
            || (match name with
                | some n => (effective_owner st n = rname : Bool)
                | none => false)) then
      (p.2.rdatas.filterMap (fun rdata =>
        if pyFalsyO content
            || (match content with
                | some c => (wellformed_or st.domain rtype c = rdata : Bool)
                | none => false) then
          let raw_rdata := _raw_content rtype rdata
          some { type := rtype, name := _full_name st.domain rname,
                 ttl := p.2.ttl, content := raw_rdata,
                 id := _build_identifier rtype rname raw_rdata }
        else none)) ++ acc
    else acc) []
  (records, if cfg.action = "list".data then closeSession st else st)

/-- The scan of the record list in `_parse_identifier`'s hash branch: a
`for` loop without `break`, so the last matching record wins. -/
def identifier_scan (identifier : Str) (records : List Record) :
    Option Str × Option Str × Option Str :=
  records.foldl (fun acc r =>
    if r.id = identifier then (some r.type, some (r.name ++ [dotc]), some r.content)
    else acc) (none, none, none)

/-- `Provider._parse_identifier` (hetzner.py lines 272-282): identifiers
longer than 7 characters are split on `/` (raw form; fewer than two
parts raises IndexError on `parts[1]`), shorter ones are looked up by
hash id in the listed records. -/
def _parse_identifier (cfg : Config) (st : ProviderState) (identifier : Str) :
    Except PyErr ((Option Str × Option Str × Option Str) × ProviderState) :=
  if identifier.length > 7 then
    match pySplit slashc identifier with
    | p0 :: p1 :: rest => .ok ((some p0, some p1, some (pyJoin [slashc] rest)), st)
    | _ => .error .indexError
  else
    let p := list_records cfg st none none none
    .ok (identifier_scan identifier p.1, p.2)

/-- `Provider.create_record` (hetzner.py lines 82-106).  The
`_wellformed_content` call is hoisted out of the membership loop; it is
pure and its raising does not depend on the loop, so this preserves the
Python behaviour.  `_propagated` (called when the submission succeeded)
only polls live DNS and its result is discarded, so it has no state
effect here. -/
def create_record (cfg : Config) (postOk : Bool) (st : ProviderState)
    (rdtype name content : Option Str) : Except PyErr (Bool × ProviderState) :=
  match rdtype, name, content with
  | some t, some n, some c =>
      let owner := effective_owner st n
      let zrr := get_rdataset_create st.zone owner t
      match _wellformed_content st.domain t c with
      | .error e => .error e
      | .ok wf =>
          if wf ∈ zrr.2.rdatas then
            .ok (true, closeSession { st with zone := zrr.1 })
          else
            let ttl := if 0 < zrr.2.ttl ∧ zrr.2.ttl < cfg.ttl then zrr.2.ttl else cfg.ttl
            let newSet : Rdataset := { rdtype := t, ttl := ttl, rdatas := [wf] }
            let st2 := postZone { st with
              zone := replace_rdataset zrr.1 owner (rdataset_update zrr.2 newSet) }
            .ok (postOk, closeSession st2)
  | _, _, _ => .ok (false, closeSession st)

/-- The record-removal loop of `delete_record` (hetzner.py lines
225-237): per listed record, partition its rrset into kept rdatas and
replace or delete the rdataset.  `get_rdataset` without `create` returns
`None` for a missing set, which the Python `for` would raise TypeError
on. -/
def delete_loop (st : ProviderState) : List Record → Except PyErr ProviderState
  | [] => .ok st
  | record :: rest =>
      match get_rdataset st.zone (record.name ++ [dotc]) record.type with
      | none => .error .typeError
      | some rrset =>
          match _wellformed_content st.domain record.type record.content with
          | .error e => .error e
          | .ok wf =>
              let rdatas := rrset.rdatas.filter (fun rd => !(rd = wf : Bool))
              if rdatas.isEmpty then
                let z1 := delete_rdataset st.zone (record.name ++ [dotc]) record.type
                delete_loop { st with zone := z1 } rest
              else
                let z1 := replace_rdataset st.zone (record.name ++ [dotc])
                  (Rdataset.mk rrset.rdtype record.ttl rdatas)
                delete_loop { st with zone := z1 } rest

/-- The lookup-and-remove tail of `delete_record` (hetzner.py lines
223-244): an empty lookup is a benign success. -/
def delete_by_lookup (cfg : Config) (postOk : Bool) (st : ProviderState)
    (rdtype name content : Option Str) : Except PyErr (Bool × ProviderState) :=
  let p := list_records cfg st rdtype name content
  if p.1.isEmpty then .ok (true, closeSession p.2)
  else
    match delete_loop p.2 p.1 with
    | .error e => .error e
    | .ok st2 => .ok (postOk, closeSession (postZone st2))

/-- `Provider.delete_record` (hetzner.py lines 215-244): a truthy
identifier is parsed first; a parse yielding any `None` component is a
benign success. -/
def delete_record (cfg : Config) (postOk : Bool) (st : ProviderState)
    (identifier rdtype name content : Option Str) : Except PyErr (Bool × ProviderState) :=
  match identifier with
  | some ident =>
      if ident.isEmpty then delete_by_lookup cfg postOk st rdtype name content
      else
        match _parse_identifier cfg st ident with
        | .error e => .error e
        | .ok (trip, st1) =>
            match trip with
            | (some t, some n, some c) =>
                delete_by_lookup cfg postOk st1 (some t) (some n) (some c)
            | _ => .ok (true, closeSession st1)
  | none => delete_by_lookup cfg postOk st rdtype name content

/-- The record-removal loop of `update_record` (hetzner.py lines
164-183): like `delete_loop`, but when kept rdatas remain and no content
disambiguator was given, fail (close the session and return `False`,
embedded as `.inl`). -/
def update_delete_loop (delete_content : Option Str) (st : ProviderState) :
    List Record → Except PyErr (Sum (Bool × ProviderState) ProviderState)
  | [] => .ok (.inr st)
  | record :: rest =>
      match get_rdataset st.zone (record.name ++ [dotc]) record.type with
      | none => .error .typeError
      | some delete_rrset =>
          match _wellformed_content st.domain record.type record.content with
          | .error e => .error e
          | .ok wf =>
              let keep_rdatas := delete_rrset.rdatas.filter (fun rd => !(rd = wf : Bool))
              if keep_rdatas.isEmpty then
                let z1 := delete_rdataset st.zone (record.name ++ [dotc]) record.type
                update_delete_loop delete_content { st with zone := z1 } rest
              else
                match delete_content with
                | none => .ok (.inl (false, closeSession st))
                | some _ =>
                    let z1 := replace_rdataset st.zone (record.name ++ [dotc])
                      (Rdataset.mk delete_rrset.rdtype record.ttl keep_rdatas)
                    update_delete_loop delete_content { st with zone := z1 } rest

/-- The lookup/remove/re-create tail of `update_record` (hetzner.py lines
162-208).  As in `create_record`, the `_wellformed_content` call of the
re-create step is hoisted out of its membership loop. -/
def update_main (cfg : Config) (postOk : Bool) (st : ProviderState)
    (delete_type delete_name delete_content : Option Str)
    (rdtype name content : Str) : Except PyErr (Bool × ProviderState) :=
  let p := list_records cfg st delete_type delete_name delete_content
  if p.1.isEmpty then .ok (false, closeSession p.2)
  else
    match update_delete_loop delete_content p.2 p.1 with
    | .error e => .error e
    | .ok (.inl r) => .ok r
    | .ok (.inr st2) =>
        let owner := effective_owner st2 name
        let zrr := get_rdataset_create st2.zone owner rdtype
        match _wellformed_content st2.domain rdtype content with
        | .error e => .error e
        | .ok wf =>
            let st3 :=
              if wf ∈ zrr.2.rdatas then { st2 with zone := zrr.1 }
              else
                let ttl := if 0 < zrr.2.ttl ∧ zrr.2.ttl < cfg.ttl then zrr.2.ttl else cfg.ttl
                let renew : Rdataset := { rdtype := rdtype, ttl := ttl, rdatas := [wf] }
                { st2 with zone := replace_rdataset zrr.1 owner (rdataset_update zrr.2 renew) }
            .ok (postOk, closeSession (postZone st3))

/-- `Python: x if x else default` for the identifier-derived update
arguments (hetzner.py lines 146-148). -/
def pyOrStr (a : Option Str) (b : Str) : Str :=
  match a with
  | some s => if s.isEmpty then b else s
  | none => b

/-- The no-identifier entry of `update_record` (hetzner.py lines
154-159): requires truthy type, name and content, and passes `None` as
the removal-content disambiguator. -/
def update_no_identifier (cfg : Config) (postOk : Bool) (st : ProviderState)
    (rdtype name content : Option Str) : Except PyErr (Bool × ProviderState) :=
  match rdtype, name, content with
  | some t, some n, some c =>
      if t.isEmpty ∨ n.isEmpty ∨ c.isEmpty then .ok (false, closeSession st)
      else update_main cfg postOk st (some t) (some n) none t n c
  | _, _, _ => .ok (false, closeSession st)

/-- `Provider.update_record` (hetzner.py lines 142-208).  The check
`if delete_type and delete_name and delete_content:` at line 145 is
Python truthiness, so a parsed component that is the empty string (for
example the content of the raw identifier `TYPE/name/`) also takes the
"does not exist" branch and returns `False` after one close. -/
def update_record (cfg : Config) (postOk : Bool) (st : ProviderState)
    (identifier rdtype name content : Option Str) : Except PyErr (Bool × ProviderState) :=
  match identifier with
  | some ident =>
      if ident.isEmpty then update_no_identifier cfg postOk st rdtype name content
      else
        match _parse_identifier cfg st ident with
        | .error e => .error e
        | .ok (trip, st1) =>
            match trip with
            | (some dt, some dn, some dc) =>
                if dt.isEmpty ∨ dn.isEmpty ∨ dc.isEmpty then
                  .ok (false, closeSession st1)
                else
                  update_main cfg postOk st1 (some dt) (some dn) (some dc)
                    (pyOrStr rdtype dt) (pyOrStr name dn) (pyOrStr content dc)
            | _ => .ok (false, closeSession st1)
  | none => update_no_identifier cfg postOk st rdtype name content

/- ### CNAME concatenation (`_dns_cname`) -/

/-- The external DNS world seen by `_dns_cname`: `cnameOf q` is the first
rdata of `_dns_lookup(q, 'CNAME')` (or `none` when the lookup yields no
rrset), `authority z q` is `_dns(z, q)`, the authoritative zone and
nameserver discovery. -/
structure DnsEnv where
  cnameOf : Str → Option Str
  authority : Str → Str → Str × List Str

/-- `qname = cname if cname else name` (Python truthiness). -/
def nextQname (name : Str) (cname : Option Str) : Str :=
  match cname with
  | some c => if c.isEmpty then name else c
  | none => name

/-- The `while concatenate` loop of `_dns_cname` (hetzner.py lines
377-391): raises AssertionError (after closing the session) as soon as
`concat >= 10`, otherwise follows one CNAME hop or terminates.  `fuel`
only bounds the recursion; starting from `fuel = 11, concat = 0` the
`concat` guard always fires before the fuel runs out. -/
def dns_cname_loop (env : DnsEnv) (name : Str) :
    Nat → Str → Option Str → Nat → Except PyErr (Str × List Str × Option Str)
  | 0, _, _, _ => .error .assertionError
  | fuel + 1, zone, cname, concat =>
      if 10 ≤ concat then .error .assertionError
      else
        let qname := nextQname name cname
        let za := env.authority zone qname
        match env.cnameOf qname with
        | some tgt => dns_cname_loop env name fuel za.1 (some tgt) (concat + 1)
        | none => .ok (za.1, za.2, cname)

/-- `Provider._dns_cname` (hetzner.py lines 370-393). -/
def _dns_cname (env : DnsEnv) (domain : Str) (zone : Str) (name : Option Str)
    (concatenate : Bool) : Except PyErr (Str × List Str × Option Str) :=
  if concatenate then
    match name with
    | some n => dns_cname_loop env (_fqdn_name domain n) 11 zone none 0
    | none => .error .typeError
  else
    let qn := match name with
              | some n => if n.isEmpty then zone ++ [dotc] else _fqdn_name domain n
              | none => zone ++ [dotc]
    let za := env.authority zone qn
    .ok (za.1, za.2, none)

/-- The number of CNAME hops the environment offers: `cnameWalk env name
L cn₀ = some cn` when, starting from accumulated cname `cn₀`, `L`
successive CNAME lookups all hit, ending with accumulated cname `cn`. -/
def cnameWalk (env : DnsEnv) (name : Str) : Nat → Option Str → Option (Option Str)
  | 0, cname => some cname
  | k + 1, cname =>
      match env.cnameOf (nextQname name cname) with
      | some tgt => cnameWalk env name k (some tgt)
      | none => none

/- ### Concrete instances used by the witnesses -/

/-- A configuration as used during a mutating operation. -/
def cfg0 : Config := { ttl := 3600, action := "delete".data, live_tests := none }

/-- A freshly-authenticated state over an empty zone. -/
def st0 : ProviderState :=
  { domain := "example.com".data, cname := none, zone := [],
    closeCalls := 0, postCalls := 0 }

/-- A state whose zone holds one TXT rdataset with two rdatas. -/
def stTwo : ProviderState :=
  { domain := "example.com".data, cname := some "owner.example.com.".data,
    zone := [("owner.example.com.".data,
              Rdataset.mk "TXT".data 300 ["\"abc\"".data, "\"def\"".data])],
    closeCalls := 0, postCalls := 0 }

/-- The 10-hop CNAME chain `a.d. -> b.d. -> ... -> k.d.`. -/
def chainList : List (Str × Str) :=
  (List.range 10).map (fun i =>
    (Char.ofNat (97 + i) :: ".d.".data, Char.ofNat (98 + i) :: ".d.".data))

/-- A DNS environment offering exactly the 10-hop chain of `chainList`. -/
def chainEnv : DnsEnv :=
  { cnameOf := fun q => (chainList.find? (fun p => p.1 = q)).map (fun p => p.2),
    authority := fun z _ => (z, []) }

/-- The precondition of the normalization round-trip claim: no
pre-existing surrounding quotes (TXT/LOC) and no pre-existing trailing
dot (CNAME/MX/NS/SRV) beyond what normalization adds. -/
def no_preexisting (rdtype c : Str) : Prop :=
  ((rdtype = "TXT".data ∨ rdtype = "LOC".data) →
     c.head? ≠ some dquote ∧ c.getLast? ≠ some dquote) ∧
  ((rdtype = "CNAME".data ∨ rdtype = "MX".data ∨ rdtype = "NS".data
      ∨ rdtype = "SRV".data) →
     c.getLast? ≠ some dotc)

/- ### Helper lemmas -/

theorem utf8Encode_append (a b : Str) :
    utf8Encode (a ++ b) = utf8Encode a ++ utf8Encode b := by
  induction a with
  | nil => simp [utf8Encode]
  | cons c rest ih => simp [utf8Encode, ih]

theorem pySplit_ne_nil (sep : Char) (s : Str) : pySplit sep s ≠ [] := by
  induction s with
  | nil => simp [pySplit]
  | cons c rest ih =>
    simp only [pySplit]
    cases h : pySplit sep rest with
    | nil => exact absurd h ih
    | cons p ps => by_cases hc : c = sep <;> simp [hc]

theorem pySplit_append (sep : Char) (a rest : Str) (h : sep ∉ a) :
    pySplit sep (a ++ sep :: rest) = a :: pySplit sep rest := by
  induction a with
  | nil =>
    simp only [List.nil_append, pySplit]
    cases hs : pySplit sep rest with
    | nil => exact absurd hs (pySplit_ne_nil sep rest)
    | cons p ps => simp
  | cons c a' ih =>
    have hc : c ≠ sep := fun hh => h (hh ▸ List.mem_cons_self c a')
    have h' : sep ∉ a' := fun hh => h (List.mem_cons_of_mem c hh)
    have hrec := ih h'
    rw [List.cons_append]
    cases hps : pySplit sep (a' ++ sep :: rest) with
    | nil => exact absurd hps (pySplit_ne_nil _ _)
    | cons p ps =>
      rw [hps] at hrec
      simp only [pySplit, hps]
      rw [if_neg hc]
      cases hrec
      rfl

theorem pyJoin_pySplit (sep : Char) (s : Str) : pyJoin [sep] (pySplit sep s) = s := by
  induction s with
  | nil => simp [pySplit, pyJoin]
  | cons c rest ih =>
    simp only [pySplit]
    cases h : pySplit sep rest with
    | nil => exact absurd h (pySplit_ne_nil sep rest)
    | cons p ps =>
      rw [h] at ih
      by_cases hc : c = sep
      · subst hc
        simp only [if_pos rfl]
        cases ps with
        | nil => simp only [pyJoin] at ih ⊢; simp [ih]
        | cons q qs => simp only [pyJoin] at ih ⊢; simp [ih]
      · simp only [if_neg hc]
        cases ps with
        | nil => simp only [pyJoin] at ih ⊢; rw [ih]
        | cons q qs =>
          simp only [pyJoin] at ih ⊢
          rw [← ih]
          simp

/- ### Claim theorems -/

/-- C2: `_build_identifier` returns exactly the first 7 hex characters of
the SHA-256 hex digest of the UTF-8 bytes of `type + "/"` followed by
`name + "/"` followed by `content`, and it is deterministic: equal inputs
give equal identifiers. -/
theorem build_identifier_correct (rdtype name content : Str) :
    _build_identifier rdtype name content = build_identifier_spec rdtype name content ∧
    ∀ t' n' c', rdtype = t' → name = n' → content = c' →
      _build_identifier rdtype name content = _build_identifier t' n' c' := by
  constructor
  · unfold _build_identifier build_identifier_spec sha256Update sha256Buf0 sha256Hexdigest
    have h2 : utf8Encode (rdtype ++ slashc :: name ++ slashc :: content)
        = utf8Encode (rdtype ++ [slashc])
          ++ (utf8Encode (name ++ [slashc]) ++ utf8Encode content) := by
      rw [show rdtype ++ slashc :: name ++ slashc :: content
          = (rdtype ++ [slashc]) ++ ((name ++ [slashc]) ++ content) from by simp]
      simp only [utf8Encode_append, List.append_assoc]
    rw [h2]
    simp [List.append_assoc]
  · intro t' n' c' h1 h2 h3
    subst h1; subst h2; subst h3
    rfl

/-- Witness for C2 at a concrete record triple. -/
theorem build_identifier_correct_witness :
    _build_identifier "TXT".data "example.com.".data "challengetoken".data
      = build_identifier_spec "TXT".data "example.com.".data "challengetoken".data ∧
    _build_identifier "TXT".data "example.com.".data "challengetoken".data
      = _build_identifier "TXT".data "example.com.".data "challengetoken".data :=
  ⟨(build_identifier_correct "TXT".data "example.com.".data "challengetoken".data).1,
   (build_identifier_correct "TXT".data "example.com.".data "challengetoken".data).2
     _ _ _ rfl rfl rfl⟩

/-- C1: for every identifier of length greater than 7 containing at least
two `/` characters (uniquely decomposed as `a ++ "/" ++ b ++ "/" ++ c`
with `a`, `b` slash-free), `_parse_identifier` takes the raw-form path
with no record-list lookup (the state is untouched) and returns the
segment before the first `/`, the segment between the first and second
`/`, and the remainder with any further `/` kept in the content part. -/
theorem parse_identifier_raw (cfg : Config) (st : ProviderState) (a b c : Str)
    (ha : slashc ∉ a) (hb : slashc ∉ b)
    (hlen : (a ++ [slashc] ++ b ++ [slashc] ++ c).length > 7) :
    _parse_identifier cfg st (a ++ [slashc] ++ b ++ [slashc] ++ c)
      = .ok ((some a, some b, some c), st) := by
  unfold _parse_identifier
  rw [if_pos hlen]
  have h1 : a ++ [slashc] ++ b ++ [slashc] ++ c = a ++ slashc :: (b ++ slashc :: c) := by
    simp
  rw [h1, pySplit_append slashc a _ ha, pySplit_append slashc b _ hb]
  simp [pyJoin_pySplit]

/-- The last matching record wins in `identifier_scan`; with no match the
accumulator is returned. -/
theorem scan_no_match (identifier : Str) (acc : Option Str × Option Str × Option Str)
    (l : List Record) (h : ∀ r ∈ l, r.id ≠ identifier) :
    l.foldl (fun acc r =>
      if r.id = identifier then (some r.type, some (r.name ++ [dotc]), some r.content)
      else acc) acc = acc := by
  induction l generalizing acc with
  | nil => rfl
  | cons x xs ih =>
    simp only [List.foldl_cons]
    rw [if_neg (h x (List.mem_cons_self x xs))]
    exact ih acc (fun r hr => h r (List.mem_cons_of_mem x hr))

theorem scan_match (identifier : Str) (acc : Option Str × Option Str × Option Str)
    (l : List Record) (r0 : Record) (hr0 : r0 ∈ l) (hid : r0.id = identifier) :
    ∃ r ∈ l, r.id = identifier ∧
      l.foldl (fun acc r =>
        if r.id = identifier then (some r.type, some (r.name ++ [dotc]), some r.content)
        else acc) acc = (some r.type, some (r.name ++ [dotc]), some r.content) := by
  induction l generalizing acc r0 with
  | nil => cases hr0
  | cons x xs ih =>
    simp only [List.foldl_cons]
    by_cases hex : ∃ r1 ∈ xs, r1.id = identifier
    · obtain ⟨r1, hr1, hid1⟩ := hex
      obtain ⟨r, hr, hid2, heq⟩ :=
        ih (if x.id = identifier
            then (some x.type, some (x.name ++ [dotc]), some x.content) else acc)
          r1 hr1 hid1
      exact ⟨r, List.mem_cons_of_mem x hr, hid2, heq⟩
    · have hx : r0 = x := by
        rcases List.mem_cons.mp hr0 with hh | hh
        · exact hh
        · exact absurd ⟨r0, hh, hid⟩ hex
      subst hx
      rw [if_pos hid, scan_no_match identifier _ xs
        (fun r hr hh => hex ⟨r, hr, hh⟩)]
      exact ⟨r0, List.mem_cons_self r0 xs, hid, rfl⟩

/-- Witness for C1: `TXT/x./t/k` parses raw to `(TXT, x., t/k)`. -/
theorem parse_identifier_raw_witness :
    slashc ∉ "TXT".data ∧ slashc ∉ "x.".data ∧
    ("TXT".data ++ [slashc] ++ "x.".data ++ [slashc] ++ "t/k".data).length > 7 ∧
    _parse_identifier cfg0 st0 ("TXT".data ++ [slashc] ++ "x.".data ++ [slashc] ++ "t/k".data)
      = .ok ((some "TXT".data, some "x.".data, some "t/k".data), st0) :=
  ⟨by decide, by decide, by decide,
   parse_identifier_raw cfg0 st0 "TXT".data "x.".data "t/k".data
     (by decide) (by decide) (by decide)⟩

/-- C9: for every identifier of length at most 7 - including strings that
syntactically look like raw form, such as `A/x./y` - `_parse_identifier`
never takes the raw-form split path: it scans the listed records and
returns `(type, name + '.', content)` of a record whose hash id equals
the identifier, or `(none, none, none)` when no listed record's id
matches. -/
theorem parse_identifier_hash (cfg : Config) (st : ProviderState) (identifier : Str)
    (hlen : identifier.length ≤ 7) :
    ((∀ r ∈ (list_records cfg st none none none).1, r.id ≠ identifier) →
      _parse_identifier cfg st identifier
        = .ok ((none, none, none), (list_records cfg st none none none).2)) ∧
    (∀ r0 ∈ (list_records cfg st none none none).1, r0.id = identifier →
      ∃ r ∈ (list_records cfg st none none none).1, r.id = identifier ∧
        _parse_identifier cfg st identifier
          = .ok ((some r.type, some (r.name ++ [dotc]), some r.content),
                 (list_records cfg st none none none).2)) := by
  constructor
  · intro h
    simp only [_parse_identifier, identifier_scan]
    rw [if_neg (by omega : ¬ identifier.length > 7)]
    rw [scan_no_match identifier _ _ h]
  · intro r0 hr0 hid
    obtain ⟨r, hr, hid2, heq⟩ :=
      scan_match identifier (none, none, none)
        (list_records cfg st none none none).1 r0 hr0 hid
    refine ⟨r, hr, hid2, ?_⟩
    simp only [_parse_identifier, identifier_scan]
    rw [if_neg (by omega : ¬ identifier.length > 7)]
    rw [heq]

/-- Witness for C9: `A/x./y` (length 6) against an empty zone resolves by
the hash scan to `(none, none, none)`, not by raw splitting. -/
theorem parse_identifier_hash_witness :
    _parse_identifier cfg0 st0 "A/x./y".data = .ok ((none, none, none), st0) :=
  (parse_identifier_hash cfg0 st0 "A/x./y".data (by decide)).1 (by decide)

theorem pyLast_ok (l : Str) (h : l ≠ []) : ∃ x, pyLast l = .ok x := by
  unfold pyLast
  cases hl : l.getLast? with
  | none => exact absurd (List.getLast?_eq_none_iff.mp hl) h
  | some x => exact ⟨x, rfl⟩

theorem quoteWrap_ok (c : Str) (h : c ≠ []) :
    ∃ w, quoteWrap c = .ok w ∧ w ≠ [] := by
  cases c with
  | nil => exact absurd rfl h
  | cons c0 rest =>
    simp only [quoteWrap, pyHead]
    by_cases h0 : c0 ≠ dquote
    · rw [if_pos h0]
      obtain ⟨x, hx⟩ := pyLast_ok (dquote :: c0 :: rest) (by simp)
      rw [hx]
      exact ⟨_, rfl, by split <;> simp⟩
    · rw [if_neg h0]
      obtain ⟨x, hx⟩ := pyLast_ok (c0 :: rest) (by simp)
      rw [hx]
      exact ⟨_, rfl, by split <;> simp⟩

theorem wellformed_total (domain rdtype c : Str) (h : c ≠ []) :
    ∃ w, _wellformed_content domain rdtype c = .ok w := by
  unfold _wellformed_content
  by_cases ht : rdtype = "TXT".data ∨ rdtype = "LOC".data
  · rw [if_pos ht]
    obtain ⟨w, hw, hne⟩ := quoteWrap_ok c h
    rw [hw]
    dsimp only
    by_cases hd : rdtype = "CNAME".data ∨ rdtype = "MX".data ∨ rdtype = "NS".data
        ∨ rdtype = "SRV".data
    · rw [if_pos hd]
      obtain ⟨x, hx⟩ := pyLast_ok w hne
      rw [hx]
      exact ⟨_, rfl⟩
    · rw [if_neg hd]; exact ⟨w, rfl⟩
  · rw [if_neg ht]
    dsimp only
    by_cases hd : rdtype = "CNAME".data ∨ rdtype = "MX".data ∨ rdtype = "NS".data
        ∨ rdtype = "SRV".data
    · rw [if_pos hd]
      obtain ⟨x, hx⟩ := pyLast_ok c h
      rw [hx]
      exact ⟨_, rfl⟩
    · rw [if_neg hd]; exact ⟨c, rfl⟩

theorem except_map_ok {α β γ : Type} (f : β → γ) (x : β) :
    Except.map f (.ok x : Except α β) = .ok (f x) := rfl

theorem quoteWrap_clean (c0 : Char) (rest : Str) (hc0 : c0 ≠ dquote)
    (hcl : (c0 :: rest).getLast? ≠ some dquote) :
    quoteWrap (c0 :: rest) = .ok (dquote :: c0 :: rest ++ [dquote]) := by
  obtain ⟨cl, hcl2⟩ : ∃ cl, (c0 :: rest).getLast? = some cl :=
    ⟨_, List.getLast?_eq_getLast _ (by simp)⟩
  have hclq : cl ≠ dquote := fun hh => hcl (hh ▸ hcl2)
  simp only [quoteWrap, pyHead]
  rw [if_pos hc0]
  unfold pyLast
  rw [List.getLast?_cons_cons, hcl2]
  dsimp only
  rw [if_pos hclq]

theorem pyStrip_wrap (c : Str) (h1 : c.head? ≠ some dquote)
    (h2 : c.getLast? ≠ some dquote) :
    pyStrip (dquote :: c ++ [dquote]) dquote = c := by
  cases c with
  | nil => rfl
  | cons c0 rest =>
    have hc0 : c0 ≠ dquote := by
      intro hh; exact h1 (by simp [hh])
    obtain ⟨cl, hcl⟩ : ∃ cl, (c0 :: rest).getLast? = some cl :=
      ⟨_, List.getLast?_eq_getLast _ (by simp)⟩
    have hclq : cl ≠ dquote := fun hh => h2 (hh ▸ hcl)
    unfold pyStrip
    have s1 : List.dropWhile (fun x => x = dquote) (dquote :: (c0 :: rest ++ [dquote]))
        = c0 :: rest ++ [dquote] := by
      simp [List.dropWhile_cons, hc0]
    rw [show dquote :: (c0 :: rest) ++ [dquote] = dquote :: (c0 :: rest ++ [dquote])
        from rfl, s1]
    rw [show c0 :: rest ++ [dquote] = (c0 :: rest) ++ [dquote] from rfl,
        List.reverse_append]
    simp only [List.reverse_singleton, List.singleton_append]
    cases hrev : (c0 :: rest).reverse with
    | nil => exact absurd (List.reverse_eq_nil_iff.mp hrev) (by simp)
    | cons y t =>
      have hy : y = cl := by
        have := List.head?_reverse (c0 :: rest)
        rw [hrev, hcl] at this
        simpa using this
      have hyq : y ≠ dquote := hy ▸ hclq
      have s3 : List.dropWhile (fun x => x = dquote) (dquote :: y :: t) = y :: t := by
        simp [List.dropWhile_cons, hyq]
      rw [s3]
      have hfin : (y :: t).reverse = c0 :: rest := by
        rw [← hrev, List.reverse_reverse]
      exact hfin

/-- C3 counterexample: for `t = CNAME` and `c = "foo"` (no pre-existing
trailing dot), `_wellformed_content` FQDN-qualifies the content but
`_raw_content` strips nothing, so the round trip returns the FQDN, not
`c`: the claimed inverse consistency fails for the dot-suffixing
types. -/
theorem raw_wellformed_counterexample :
    no_preexisting "CNAME".data "foo".data ∧
    _wellformed_content "example.com".data "CNAME".data "foo".data
      = .ok "foo.example.com.".data ∧
    _raw_content "CNAME".data "foo.example.com.".data = "foo.example.com.".data ∧
    "foo.example.com.".data ≠ "foo".data :=
  ⟨by constructor <;> (intro hh; first | exact absurd hh (by decide) | decide),
   by rfl, by rfl, by decide⟩

/-- C3 amended: the round trip `_raw_content t (_wellformed_content t c)
= c` holds for TXT/LOC whenever `c` is non-empty with no pre-existing
leading or trailing quote, and for CNAME/MX/NS/SRV exactly when `c`
already ends with `.` (for dot-less content normalization FQDN-qualifies
while `_raw_content` is the identity, see the counterexample). -/
theorem raw_wellformed_roundtrip :
    (∀ domain t c, (t = "TXT".data ∨ t = "LOC".data) → c ≠ [] →
      c.head? ≠ some dquote → c.getLast? ≠ some dquote →
      (_wellformed_content domain t c).map (_raw_content t) = .ok c) ∧
    (∀ domain t c, (t = "CNAME".data ∨ t = "MX".data ∨ t = "NS".data
        ∨ t = "SRV".data) →
      c.getLast? = some dotc →
      (_wellformed_content domain t c).map (_raw_content t) = .ok c) := by
  constructor
  · intro domain t c ht hc h1 h2
    obtain ⟨c0, rest, rfl⟩ : ∃ c0 rest, c = c0 :: rest := by
      cases c with
      | nil => exact absurd rfl hc
      | cons c0 rest => exact ⟨c0, rest, rfl⟩
    have hc0 : c0 ≠ dquote := by
      intro hh; exact h1 (by simp [hh])
    have hwrap := quoteWrap_clean c0 rest hc0 h2
    have hstrip := pyStrip_wrap (c0 :: rest) h1 h2
    rcases ht with rfl | rfl <;>
    · simp only [_wellformed_content]
      rw [if_pos (by simp), hwrap]
      dsimp only
      rw [if_neg (by decide)]
      rw [except_map_ok]
      simp only [_raw_content]
      rw [if_pos (by simp)]
      rw [show dquote :: c0 :: rest ++ [dquote]
          = dquote :: (c0 :: rest) ++ [dquote] from rfl, hstrip]
  · intro domain t c ht hlast
    have hpy : pyLast c = .ok dotc := by
      unfold pyLast; rw [hlast]
    rcases ht with rfl | rfl | rfl | rfl <;>
    · simp only [_wellformed_content]
      rw [if_neg (by decide)]
      dsimp only
      rw [if_pos (by simp), hpy]
      dsimp only
      rw [if_neg (by simp)]
      rw [except_map_ok]
      simp only [_raw_content]
      rw [if_neg (by decide)]

/-- Witness for the amended C3: TXT round-trips `abc`, CNAME round-trips
the absolute name `foo.example.com.`. -/
theorem raw_wellformed_roundtrip_witness :
    (_wellformed_content "example.com".data "TXT".data "abc".data).map
        (_raw_content "TXT".data) = .ok "abc".data ∧
    (_wellformed_content "example.com".data "CNAME".data "foo.example.com.".data).map
        (_raw_content "CNAME".data) = .ok "foo.example.com.".data :=
  ⟨raw_wellformed_roundtrip.1 "example.com".data "TXT".data "abc".data
     (Or.inl rfl) (by decide) (by decide) (by decide),
   raw_wellformed_roundtrip.2 "example.com".data "CNAME".data "foo.example.com.".data
     (Or.inl rfl) (by decide)⟩

/-- C10: `_wellformed_content` unconditionally indexes `content[0]` and
`content[-1]` for TXT/LOC and `content[-1]` for CNAME/MX/NS/SRV, so in
the total embedding the empty string reaches the IndexError branch for
exactly these record types, non-empty content always normalizes, and the
error propagates through `create_record`, making non-empty content an
unstated precondition of every operation that normalizes content. -/
theorem wellformed_empty_indexerror (t : Str)
    (ht : t ∈ ["TXT".data, "LOC".data, "CNAME".data, "MX".data, "NS".data, "SRV".data]) :
    (∀ domain, _wellformed_content domain t [] = .error .indexError) ∧
    (∀ domain c, c ≠ [] → ∃ w, _wellformed_content domain t c = .ok w) ∧
    (∀ cfg postOk st (n : Str),
      create_record cfg postOk st (some t) (some n) (some []) = .error .indexError) := by
  have hempty : ∀ domain, _wellformed_content domain t [] = .error .indexError := by
    intro domain
    fin_cases ht <;> rfl
  refine ⟨hempty, fun domain c hc => wellformed_total domain t c hc, ?_⟩
  intro cfg postOk st n
  simp only [create_record, hempty st.domain]

/-- Witness for C10 at TXT: the empty content raises IndexError, a
non-empty content normalizes, and `create_record` propagates the error. -/
theorem wellformed_empty_indexerror_witness :
    _wellformed_content "example.com".data "TXT".data [] = .error .indexError ∧
    (∃ w, _wellformed_content "example.com".data "TXT".data "abc".data = .ok w) ∧
    create_record cfg0 true st0 (some "TXT".data) (some "n".data) (some [])
      = .error .indexError :=
  ⟨(wellformed_empty_indexerror "TXT".data (by decide)).1 "example.com".data,
   (wellformed_empty_indexerror "TXT".data (by decide)).2.1 "example.com".data "abc".data
     (by decide),
   (wellformed_empty_indexerror "TXT".data (by decide)).2.2 cfg0 true st0 "n".data⟩

/-- C4: create is idempotent: if the zone's rdata set for the effective
owner name and type already contains an rdata whose text equals
`_wellformed_content(type, content)`, then `create_record` returns `True`
and leaves the zone's record data unchanged - no rdata is added and no
zone submission is performed (only the session close is counted). -/
theorem create_record_idempotent (cfg : Config) (postOk : Bool) (st : ProviderState)
    (t n c wf : Str) (rs : Rdataset)
    (hwf : _wellformed_content st.domain t c = .ok wf)
    (hget : get_rdataset st.zone (effective_owner st n) t = some rs)
    (hmem : wf ∈ rs.rdatas) :
    create_record cfg postOk st (some t) (some n) (some c) = .ok (true, closeSession st) ∧
    (closeSession st).zone = st.zone ∧ (closeSession st).postCalls = st.postCalls := by
  refine ⟨?_, rfl, rfl⟩
  simp only [create_record, get_rdataset_create, hget, hwf]
  rw [if_pos hmem]

/-- Witness for C4: creating `TXT abc` when `"abc"` is already present
returns `True` with the state only close-counted. -/
theorem create_record_idempotent_witness :
    create_record cfg0 true stTwo (some "TXT".data) (some "w".data) (some "abc".data)
      = .ok (true, closeSession stTwo) ∧
    (closeSession stTwo).zone = stTwo.zone ∧
    (closeSession stTwo).postCalls = stTwo.postCalls :=
  create_record_idempotent cfg0 true stTwo "TXT".data "w".data "abc".data
    "\"abc\"".data (Rdataset.mk "TXT".data 300 ["\"abc\"".data, "\"def\"".data])
    (by rfl) (by rfl) (by simp)

/-- C6: invoking `update_record` with type and name but no content (the
removal-content disambiguator is null), with the lookup matching more
than one distinct rdata for that owner and type, fails (returns `False`)
without replacing or removing any record.  (In the code this failure
already fires at the upfront `type and name and content` precondition
check, so no lookup or removal is ever attempted.) -/
theorem update_record_ambiguous (cfg : Config) (postOk : Bool) (st : ProviderState)
    (t n : Str) (_ht : ¬ t.isEmpty) (_hn : ¬ n.isEmpty)
    (_hmulti : 1 < (list_records cfg st (some t) (some n) none).1.length) :
    update_record cfg postOk st none (some t) (some n) none
      = .ok (false, closeSession st) ∧
    (closeSession st).zone = st.zone ∧ (closeSession st).postCalls = st.postCalls :=
  ⟨rfl, rfl, rfl⟩

/-- Witness for C6: two distinct TXT rdatas at the owner, update with
type and name only. -/
theorem update_record_ambiguous_witness :
    update_record cfg0 true stTwo none (some "TXT".data) (some "owner".data) none
      = .ok (false, closeSession stTwo) ∧
    (closeSession stTwo).zone = stTwo.zone ∧
    (closeSession stTwo).postCalls = stTwo.postCalls :=
  update_record_ambiguous cfg0 true stTwo "TXT".data "owner".data
    (by decide) (by decide) (by decide)

theorem list_records_snd_zone (cfg : Config) (st : ProviderState)
    (t n c : Option Str) :
    (list_records cfg st t n c).2.zone = st.zone ∧
    (list_records cfg st t n c).2.postCalls = st.postCalls := by
  simp only [list_records]
  split <;> exact ⟨rfl, rfl⟩

theorem parse_identifier_state (cfg : Config) (st : ProviderState) (i : Str)
    (trip : Option Str × Option Str × Option Str) (st1 : ProviderState)
    (h : _parse_identifier cfg st i = .ok (trip, st1)) :
    st1.zone = st.zone ∧ st1.postCalls = st.postCalls := by
  simp only [_parse_identifier] at h
  split at h
  · split at h
    · simp only [Except.ok.injEq, Prod.mk.injEq] at h
      obtain ⟨-, rfl⟩ := h
      exact ⟨rfl, rfl⟩
    · exact absurd h (by simp)
  · simp only [Except.ok.injEq, Prod.mk.injEq] at h
    obtain ⟨-, rfl⟩ := h
    exact list_records_snd_zone cfg st none none none

/-- C5: deleting a nonexistent record is a benign success: when a truthy
identifier parses to a triple with a null component, and when a
type/name/content lookup matches no records, `delete_record` returns
`True` and the zone's record data is unchanged with no submission
performed. -/
theorem delete_record_nonexistent (cfg : Config) (postOk : Bool) (st : ProviderState)
    (ident : Str) (pt pn pc : Option Str) (st1 : ProviderState)
    (rdtype name content : Option Str)
    (hid : ¬ ident.isEmpty)
    (hparse : _parse_identifier cfg st ident = .ok ((pt, pn, pc), st1))
    (hnone : pt = none ∨ pn = none ∨ pc = none)
    (hmiss : (list_records cfg st rdtype name content).1 = []) :
    (delete_record cfg postOk st (some ident) rdtype name content
        = .ok (true, closeSession st1) ∧
      st1.zone = st.zone ∧ st1.postCalls = st.postCalls) ∧
    (delete_record cfg postOk st none rdtype name content
        = .ok (true, closeSession (list_records cfg st rdtype name content).2) ∧
      (list_records cfg st rdtype name content).2.zone = st.zone ∧
      (list_records cfg st rdtype name content).2.postCalls = st.postCalls) := by
  constructor
  · refine ⟨?_, (parse_identifier_state cfg st ident _ st1 hparse).1,
      (parse_identifier_state cfg st ident _ st1 hparse).2⟩
    simp only [delete_record]
    rw [if_neg hid, hparse]
    rcases pt with - | t' <;> rcases pn with - | n' <;> rcases pc with - | c' <;>
      first
      | rfl
      | (exfalso; rcases hnone with h | h | h <;> exact Option.noConfusion h)
  · refine ⟨?_, (list_records_snd_zone cfg st rdtype name content).1,
      (list_records_snd_zone cfg st rdtype name content).2⟩
    simp only [delete_record, delete_by_lookup]
    rw [hmiss]
    rfl

/-- Witness for C5: the unmatched 7-character identifier `abcdefg` and an
all-`none` lookup against the empty zone. -/
theorem delete_record_nonexistent_witness :
    (delete_record cfg0 true st0 (some "abcdefg".data) none none none
        = .ok (true, closeSession st0) ∧
      st0.zone = st0.zone ∧ st0.postCalls = st0.postCalls) ∧
    (delete_record cfg0 true st0 none none none none
        = .ok (true, closeSession (list_records cfg0 st0 none none none).2) ∧
      (list_records cfg0 st0 none none none).2.zone = st0.zone ∧
      (list_records cfg0 st0 none none none).2.postCalls = st0.postCalls) :=
  delete_record_nonexistent cfg0 true st0 "abcdefg".data none none none st0
    none none none (by decide) (by rfl) (Or.inl rfl) (by rfl)

theorem dns_loop_ok (env : DnsEnv) (name : Str) :
    ∀ (L concat : Nat) (zone : Str) (cname cn : Option Str),
      cnameWalk env name L cname = some cn →
      env.cnameOf (nextQname name cn) = none →
      concat + L ≤ 9 →
      ∃ z ns, dns_cname_loop env name (11 - concat) zone cname concat
        = .ok (z, ns, cn) := by
  intro L
  induction L with
  | zero =>
    intro concat zone cname cn hwalk hmiss hle
    have hcn : cname = cn := by simpa [cnameWalk] using hwalk
    subst hcn
    obtain ⟨k, hk⟩ : ∃ k, 11 - concat = k + 1 := ⟨10 - concat, by omega⟩
    rw [hk]
    simp only [dns_cname_loop]
    rw [if_neg (by omega : ¬ 10 ≤ concat), hmiss]
    exact ⟨_, _, rfl⟩
  | succ L ih =>
    intro concat zone cname cn hwalk hmiss hle
    cases hc : env.cnameOf (nextQname name cname) with
    | none => rw [cnameWalk, hc] at hwalk; exact absurd hwalk (by simp)
    | some tgt =>
      have hwalk' : cnameWalk env name L (some tgt) = some cn := by
        rw [cnameWalk, hc] at hwalk; exact hwalk
      obtain ⟨k, hk⟩ : ∃ k, 11 - concat = k + 1 := ⟨10 - concat, by omega⟩
      rw [hk]
      simp only [dns_cname_loop]
      rw [if_neg (by omega : ¬ 10 ≤ concat), hc]
      have hk2 : k = 11 - (concat + 1) := by omega
      rw [hk2]
      exact ih (concat + 1) _ (some tgt) cn hwalk' hmiss (by omega)

theorem dns_loop_err (env : DnsEnv) (name : Str) :
    ∀ (k concat : Nat) (zone : Str) (cname cn : Option Str),
      cnameWalk env name k cname = some cn →
      concat + k = 10 →
      dns_cname_loop env name (11 - concat) zone cname concat
        = .error .assertionError := by
  intro k
  induction k with
  | zero =>
    intro concat zone cname cn _ hconcat
    obtain ⟨rfl⟩ : concat = 10 := by omega
    simp only [dns_cname_loop]
    rw [if_pos (le_refl 10)]
  | succ k ih =>
    intro concat zone cname cn hwalk hconcat
    cases hc : env.cnameOf (nextQname name cname) with
    | none => rw [cnameWalk, hc] at hwalk; exact absurd hwalk (by simp)
    | some tgt =>
      have hwalk' : cnameWalk env name k (some tgt) = some cn := by
        rw [cnameWalk, hc] at hwalk; exact hwalk
      obtain ⟨f, hf⟩ : ∃ f, 11 - concat = f + 1 := ⟨10 - concat, by omega⟩
      rw [hf]
      simp only [dns_cname_loop]
      rw [if_neg (by omega : ¬ 10 ≤ concat), hc]
      have hf2 : f = 11 - (concat + 1) := by omega
      rw [hf2]
      exact ih (concat + 1) _ (some tgt) cn hwalk' (by omega)

/-- C7 counterexample: on the concrete 10-hop chain of `chainEnv`, the
chain ends after exactly 10 hops (well within "at most 10"), yet
`_dns_cname` raises AssertionError instead of terminating with the
chain tip: the `concat >= 10` guard fires before the 11th lookup ever
happens, so a 10-hop chain is already fatal. -/
theorem dns_cname_chain_counterexample :
    cnameWalk chainEnv (_fqdn_name "d".data "a.d".data) 10 none
      = some (some "k.d.".data) ∧
    chainEnv.cnameOf (nextQname (_fqdn_name "d".data "a.d".data)
      (some "k.d.".data)) = none ∧
    (10 : Nat) ≤ 10 ∧
    _dns_cname chainEnv "d".data "zone".data (some "a.d".data) true
      = .error .assertionError :=
  ⟨by decide, by decide, by decide, by rfl⟩

/-- C7 amended: with concatenation enabled, a CNAME chain of at most 9
hops terminates normally with the accumulated chain tip; as soon as 10
hops have been followed the walk fails fatally (AssertionError) before
performing an 11th lookup - so a chain of exactly 10 hops also fails,
and in particular the walk never follows more than 10 hops. -/
theorem dns_cname_chain (env : DnsEnv) (domain zone n : Str) :
    (∀ L cn, cnameWalk env (_fqdn_name domain n) L none = some cn →
      env.cnameOf (nextQname (_fqdn_name domain n) cn) = none → L ≤ 9 →
      ∃ z ns, _dns_cname env domain zone (some n) true = .ok (z, ns, cn)) ∧
    (∀ cn, cnameWalk env (_fqdn_name domain n) 10 none = some cn →
      _dns_cname env domain zone (some n) true = .error .assertionError) := by
  constructor
  · intro L cn hwalk hmiss hle
    have h := dns_loop_ok env (_fqdn_name domain n) L 0 zone none cn hwalk hmiss
      (by omega)
    simpa [_dns_cname] using h
  · intro cn hwalk
    have h := dns_loop_err env (_fqdn_name domain n) 10 0 zone none cn hwalk (by omega)
    simpa [_dns_cname] using h

/-- Witness for the amended C7: a 2-hop prefix of the chain environment
restricted to 2 hops terminates, and the full 10-hop chain fails. -/
theorem dns_cname_chain_witness :
    (∃ z ns, _dns_cname
        { cnameOf := fun q => (chainList.take 2).find?
            (fun p => p.1 = q) |>.map (fun p => p.2),
          authority := fun zn _ => (zn, []) }
        "d".data "zone".data (some "a.d".data) true
      = .ok (z, ns, some "c.d.".data)) ∧
    _dns_cname chainEnv "d".data "zone".data (some "a.d".data) true
      = .error .assertionError :=
  ⟨(dns_cname_chain _ "d".data "zone".data "a.d".data).1 2 (some "c.d.".data)
     (by decide) (by decide) (by decide),
   (dns_cname_chain chainEnv "d".data "zone".data "a.d".data).2
     (some "k.d.".data) (by decide)⟩

theorem list_records_snd (cfg : Config) (st : ProviderState) (t n c : Option Str)
    (h : cfg.action ≠ "list".data) :
    (list_records cfg st t n c).2 = st := by
  simp only [list_records]
  rw [if_neg h]

theorem parse_identifier_snd (cfg : Config) (st : ProviderState) (i : Str)
    (trip : Option Str × Option Str × Option Str) (st1 : ProviderState)
    (hact : cfg.action ≠ "list".data)
    (h : _parse_identifier cfg st i = .ok (trip, st1)) : st1 = st := by
  simp only [_parse_identifier] at h
  split at h
  · split at h
    · simp only [Except.ok.injEq, Prod.mk.injEq] at h
      exact h.2.symm
    · exact absurd h (by simp)
  · simp only [Except.ok.injEq, Prod.mk.injEq] at h
    rw [← h.2, list_records_snd cfg st none none none hact]

theorem create_record_closes (cfg : Config) (postOk : Bool) (st : ProviderState)
    (t n c : Option Str) (b : Bool) (st' : ProviderState)
    (h : create_record cfg postOk st t n c = .ok (b, st')) :
    st'.closeCalls = st.closeCalls + 1 := by
  rcases t with - | t <;> rcases n with - | n <;> rcases c with - | c <;>
    simp only [create_record] at h <;>
    [skip; skip; skip; skip; skip; skip; skip; split at h] <;>
    first
    | (simp only [Except.ok.injEq, Prod.mk.injEq] at h
       rw [← h.2]
       rfl)
    | exact absurd h (by simp)
    | (split at h <;>
        · simp only [Except.ok.injEq, Prod.mk.injEq] at h
          rw [← h.2]
          rfl)

theorem delete_loop_closeCalls (recs : List Record) :
    ∀ (st st2 : ProviderState), delete_loop st recs = .ok st2 →
      st2.closeCalls = st.closeCalls := by
  induction recs with
  | nil =>
    intro st st2 h
    simp only [delete_loop, Except.ok.injEq] at h
    rw [← h]
  | cons record rest ih =>
    intro st st2 h
    simp only [delete_loop] at h
    split at h
    · exact absurd h (by simp)
    · split at h
      · exact absurd h (by simp)
      · split at h
        · exact (ih _ st2 h).trans rfl
        · exact (ih _ st2 h).trans rfl

theorem update_delete_loop_inr (dc : Option Str) (recs : List Record) :
    ∀ (st st2 : ProviderState),
      update_delete_loop dc st recs = .ok (.inr st2) →
      st2.closeCalls = st.closeCalls := by
  induction recs with
  | nil =>
    intro st st2 h
    simp only [update_delete_loop, Except.ok.injEq, Sum.inr.injEq] at h
    rw [← h]
  | cons record rest ih =>
    intro st st2 h
    simp only [update_delete_loop] at h
    split at h
    · exact absurd h (by simp)
    · split at h
      · exact absurd h (by simp)
      · split at h
        · exact (ih _ st2 h).trans rfl
        · split at h
          · exact absurd h (by simp)
          · exact (ih _ st2 h).trans rfl

theorem update_delete_loop_inl (dc : Option Str) (recs : List Record) :
    ∀ (st : ProviderState) (b : Bool) (st2 : ProviderState),
      update_delete_loop dc st recs = .ok (.inl (b, st2)) →
      st2.closeCalls = st.closeCalls + 1 := by
  induction recs with
  | nil =>
    intro st b st2 h
    exact absurd h (by simp [update_delete_loop])
  | cons record rest ih =>
    intro st b st2 h
    simp only [update_delete_loop] at h
    split at h
    · exact absurd h (by simp)
    · split at h
      · exact absurd h (by simp)
      · split at h
        · exact (ih _ b st2 h).trans rfl
        · split at h
          · simp only [Except.ok.injEq, Sum.inl.injEq, Prod.mk.injEq] at h
            rw [← h.2]
            rfl
          · exact (ih _ b st2 h).trans rfl

theorem delete_by_lookup_closes (cfg : Config) (postOk : Bool) (st : ProviderState)
    (t n c : Option Str) (b : Bool) (st' : ProviderState)
    (hact : cfg.action ≠ "list".data)
    (h : delete_by_lookup cfg postOk st t n c = .ok (b, st')) :
    st'.closeCalls = st.closeCalls + 1 := by
  simp only [delete_by_lookup] at h
  rw [list_records_snd cfg st t n c hact] at h
  split at h
  · simp only [Except.ok.injEq, Prod.mk.injEq] at h
    rw [← h.2]
    rfl
  · split at h
    · exact absurd h (by simp)
    · rename_i st2 heq
      simp only [Except.ok.injEq, Prod.mk.injEq] at h
      rw [← h.2]
      have h2 : st2.closeCalls = st.closeCalls := delete_loop_closeCalls _ st st2 heq
      simp only [closeSession, postZone, h2]

theorem delete_record_closes (cfg : Config) (postOk : Bool) (st : ProviderState)
    (identifier t n c : Option Str) (b : Bool) (st' : ProviderState)
    (hact : cfg.action ≠ "list".data)
    (h : delete_record cfg postOk st identifier t n c = .ok (b, st')) :
    st'.closeCalls = st.closeCalls + 1 := by
  rcases identifier with - | ident
  · simp only [delete_record] at h
    exact delete_by_lookup_closes cfg postOk st t n c b st' hact h
  · simp only [delete_record] at h
    by_cases hemp : ident.isEmpty
    · rw [if_pos hemp] at h
      exact delete_by_lookup_closes cfg postOk st t n c b st' hact h
    · rw [if_neg hemp] at h
      cases hp : _parse_identifier cfg st ident with
      | error e => rw [hp] at h; exact absurd h (by simp)
      | ok pr =>
        obtain ⟨trip, st1⟩ := pr
        rw [hp] at h
        have hst1 : st1 = st := parse_identifier_snd cfg st ident trip st1 hact hp
        rw [hst1] at h
        obtain ⟨pt, pn, pc⟩ := trip
        rcases pt with - | t' <;> rcases pn with - | n' <;> rcases pc with - | c' <;>
          (try dsimp only at h) <;>
          first
          | exact delete_by_lookup_closes cfg postOk st _ _ _ b st' hact h
          | (simp only [Except.ok.injEq, Prod.mk.injEq] at h
             rw [← h.2]
             rfl)

theorem update_main_closes (cfg : Config) (postOk : Bool) (st : ProviderState)
    (dt dn dc : Option Str) (t n c : Str) (b : Bool) (st' : ProviderState)
    (hact : cfg.action ≠ "list".data)
    (h : update_main cfg postOk st dt dn dc t n c = .ok (b, st')) :
    st'.closeCalls = st.closeCalls + 1 := by
  simp only [update_main] at h
  rw [list_records_snd cfg st dt dn dc hact] at h
  split at h
  · simp only [Except.ok.injEq, Prod.mk.injEq] at h
    rw [← h.2]
    rfl
  · split at h
    · exact absurd h (by simp)
    · rename_i pr heq
      simp only [Except.ok.injEq] at h
      subst h
      exact update_delete_loop_inl dc _ st b st' heq
    · rename_i st2 heq
      have h2 : st2.closeCalls = st.closeCalls := update_delete_loop_inr dc _ st st2 heq
      split at h
      · exact absurd h (by simp)
      · simp only [Except.ok.injEq, Prod.mk.injEq] at h
        rw [← h.2]
        simp only [closeSession, postZone]
        split <;> simp [h2]

theorem update_no_identifier_closes (cfg : Config) (postOk : Bool)
    (st : ProviderState) (t n c : Option Str) (b : Bool) (st' : ProviderState)
    (hact : cfg.action ≠ "list".data)
    (h : update_no_identifier cfg postOk st t n c = .ok (b, st')) :
    st'.closeCalls = st.closeCalls + 1 := by
  rcases t with - | t' <;> rcases n with - | n' <;> rcases c with - | c' <;>
    simp only [update_no_identifier] at h <;>
    first
    | (simp only [Except.ok.injEq, Prod.mk.injEq] at h
       rw [← h.2]
       rfl)
    | (split at h
       · simp only [Except.ok.injEq, Prod.mk.injEq] at h
         rw [← h.2]
         rfl
       · exact update_main_closes cfg postOk st _ _ _ _ _ _ b st' hact h)

theorem update_record_closes (cfg : Config) (postOk : Bool) (st : ProviderState)
    (identifier t n c : Option Str) (b : Bool) (st' : ProviderState)
    (hact : cfg.action ≠ "list".data)
    (h : update_record cfg postOk st identifier t n c = .ok (b, st')) :
    st'.closeCalls = st.closeCalls + 1 := by
  rcases identifier with - | ident
  · simp only [update_record] at h
    exact update_no_identifier_closes cfg postOk st t n c b st' hact h
  · simp only [update_record] at h
    by_cases hemp : ident.isEmpty
    · rw [if_pos hemp] at h
      exact update_no_identifier_closes cfg postOk st t n c b st' hact h
    · rw [if_neg hemp] at h
      cases hp : _parse_identifier cfg st ident with
      | error e => rw [hp] at h; exact absurd h (by simp)
      | ok pr =>
        obtain ⟨trip, st1⟩ := pr
        rw [hp] at h
        have hst1 : st1 = st := parse_identifier_snd cfg st ident trip st1 hact hp
        rw [hst1] at h
        obtain ⟨pt, pn, pc⟩ := trip
        rcases pt with - | t' <;> rcases pn with - | n' <;> rcases pc with - | c' <;>
          (try dsimp only at h) <;>
          first
          | (split at h
             · simp only [Except.ok.injEq, Prod.mk.injEq] at h
               rw [← h.2]
               rfl
             · exact update_main_closes cfg postOk st _ _ _ _ _ _ b st' hact h)
          | (simp only [Except.ok.injEq, Prod.mk.injEq] at h
             rw [← h.2]
             rfl)

/-- C8: on every terminal returning path of `create_record`,
`update_record` and `delete_record` - success returns,
precondition-failure returns, lookup-failure returns and post-submit
returns alike - `_close_session` is invoked exactly once before the
operation returns (the operations are run with their own action
configured, so the internal `list_records` calls do not close). -/
theorem session_closed_once (cfg : Config) (postOk : Bool) (st : ProviderState)
    (t1 n1 c1 id2 t2 n2 c2 id3 t3 n3 c3 : Option Str)
    (b1 b2 b3 : Bool) (st1 st2 st3 : ProviderState)
    (hact : cfg.action ≠ "list".data)
    (hc : create_record cfg postOk st t1 n1 c1 = .ok (b1, st1))
    (hu : update_record cfg postOk st id2 t2 n2 c2 = .ok (b2, st2))
    (hd : delete_record cfg postOk st id3 t3 n3 c3 = .ok (b3, st3)) :
    st1.closeCalls = st.closeCalls + 1 ∧
    st2.closeCalls = st.closeCalls + 1 ∧
    st3.closeCalls = st.closeCalls + 1 :=
  ⟨create_record_closes cfg postOk st t1 n1 c1 b1 st1 hc,
   update_record_closes cfg postOk st id2 t2 n2 c2 b2 st2 hact hu,
   delete_record_closes cfg postOk st id3 t3 n3 c3 b3 st3 hact hd⟩

/-- Witness for C8 over the empty-zone state: a precondition-failure
create, a precondition-failure update and a lookup-failure delete each
close the session exactly once. -/
theorem session_closed_once_witness :
    (closeSession st0).closeCalls = st0.closeCalls + 1 ∧
    (closeSession st0).closeCalls = st0.closeCalls + 1 ∧
    (closeSession (list_records cfg0 st0 none none none).2).closeCalls
      = st0.closeCalls + 1 :=
  session_closed_once cfg0 true st0 none none none none none none none
    none none none none false false true
    (closeSession st0) (closeSession st0)
    (closeSession (list_records cfg0 st0 none none none).2)
    (by decide) (by rfl) (by rfl) (by rfl)
